import Mathlib

/-!
Shallow embedding of src/script.js (transcript highlighter for HTML5 audio
with WebVTT cues), together with theorems checking the specification
claims against it.

Numbers that JavaScript stores as floating point are modelled as rationals
(ℚ); a missing / undefined / NaN value is modelled by an Option. DOM
elements are modelled by records of the fields the script reads or writes.
-/

namespace Script

/-- padStart applied with target length 2 and pad string "0", as used by
formatTime on the minute and second fields. -/
def padStart2 (s : String) : String :=
  if s.length < 2 then String.mk (List.replicate (2 - s.length) '0') ++ s else s

/-- JavaScript remainder a % b. The script only evaluates it at a ≥ 0,
b = 60, where the JavaScript remainder equals a - b * ⌊a / b⌋. -/
def jsRem (a b : ℚ) : ℚ := a - b * ⌊a / b⌋

/-- Embedding of formatTime (src/script.js lines 10-15). The argument is
Option ℚ: none models a missing, undefined or NaN argument, which the
expression seconds || 0 turns into 0 (a 0 argument is also mapped to 0 by
that expression, so getD 0 is faithful). -/
def formatTime (seconds : Option ℚ) : String :=
  let s : ℚ := max 0 (seconds.getD 0)
  let m : ℤ := ⌊s / 60⌋
  let r : ℤ := ⌊jsRem s 60⌋
  padStart2 (toString m) ++ ":" ++ padStart2 (toString r)

/-- The MM:SS shape the spec describes: minutes and seconds fields each
rendered in decimal and zero-padded to width at least two, separated by a
colon. Stated over naturals; the spec minutes are the floor of the input
divided by 60 and the spec seconds the floor of the input modulo 60. -/
def mmssOf (m r : ℕ) : String := padStart2 (toString m) ++ ":" ++ padStart2 (toString r)

/-- A caption cue as the script consumes it: a start time and a text
payload. Cues are externally owned platform objects; the script reads
startTime and text and otherwise treats a cue as an opaque key. -/
structure Cue where
  startTime : ℚ
  text : String
deriving DecidableEq, Repr

/-- Object identity of a platform cue, used as the key of the cueToLine
Map (a JavaScript Map keys on object identity, not on field values). -/
abbrev CueId := ℕ

/-- A rendered transcript line element: the data-idx attribute, the text
content of its time span, the text content of its text span, and whether
its class list carries the active class. -/
structure Line where
  idx : ℕ
  time : String
  text : String
  active : Bool
deriving DecidableEq, Repr

/-- The per-card state the script mutates (src/script.js lines 36-37 and
the transcript element): placeholder is some message when transcriptEl
holds an innerHTML message instead of line elements; lines is the lines
array (equal to the rendered children when placeholder is none); lineCues
is the cueToLine Map, recorded as the cue identity of each line in line
order (the map sends the cue with identity lineCues.get k to line k);
scrollTop is the transcript container scroll offset. -/
structure CardState where
  placeholder : Option String
  lines : List Line
  lineCues : List CueId
  scrollTop : ℚ
deriving DecidableEq, Repr

/-- The innerHTML message assigned when render runs with no cue data
(src/script.js lines 46-47). -/
def loadingMsg : String :=
  "<p>Loading transcript… If it never loads, check your .vtt path and formatting.</p>"

/-- One line element as built for cue number idx (src/script.js lines
52-67): time span holds formatTime of the cue startTime, text span holds
the cue text verbatim, and no active class is present on a fresh line. -/
def mkLine (idx : ℕ) (cue : Cue) : Line :=
  { idx := idx, time := formatTime (some cue.startTime), text := cue.text, active := false }

/-- Embedding of renderFromCues (src/script.js lines 39-88). The cues
argument is the snapshot of track.cues at call time, each with its object
identity. The function clears the container, the lines array and the map,
then either installs the loading placeholder (empty cue list) or builds
one line per cue in cue order, recording the cue identity of each line.
The scroll offset is not assigned by the function. -/
def renderFromCues (cues : List (CueId × Cue)) (st : CardState) : CardState :=
  if cues.isEmpty then
    { placeholder := some loadingMsg, lines := [], lineCues := [], scrollTop := st.scrollTop }
  else
    { placeholder := none
      lines := cues.enum.map (fun p => mkLine p.1 p.2.2)
      lineCues := cues.map Prod.fst
      scrollTop := st.scrollTop }

/-- Embedding of clearActive (src/script.js lines 105-107): removes the
active class from every element of the lines array. -/
def clearActive (st : CardState) : CardState :=
  { st with lines := st.lines.map (fun l => { l with active := false }) }

/-- classList.add of the active class on the line element at position i
of the lines array (the element cueToLine.get returned). -/
def markActiveAt : List Line → ℕ → List Line
  | [], _ => []
  | l :: ls, 0 => { l with active := true } :: ls
  | l :: ls, n + 1 => l :: markActiveAt ls n

/-- A bounding client rect, reduced to the two fields the script reads. -/
structure Rect where
  top : ℚ
  bottom : ℚ
deriving DecidableEq, Repr

/-- Layout geometry at handler time: the rect of the transcript container
and the rect of each line element by line index. -/
structure ScrollEnv where
  parentRect : Rect
  lineRect : ℕ → Rect

/-- paddingTop constant of the scroll window (src/script.js line 128). -/
def paddingTop : ℚ := 20

/-- paddingBottom constant of the scroll window (src/script.js line 129). -/
def paddingBottom : ℚ := 30

/-- The two control elements read when deciding whether to scroll. none
models a missing element (querySelector returned null), which is falsy in
the conjunction at src/script.js line 119. -/
structure Flags where
  detailsOpen : Option Bool
  autoScrollChecked : Option Bool
deriving DecidableEq, Repr

/-- Embedding of the condition details && details.open &&
autoScrollCheckbox && autoScrollCheckbox.checked (src/script.js line
119). -/
def doScroll (f : Flags) : Bool :=
  f.detailsOpen.getD false && f.autoScrollChecked.getD false

/-- The scrollTop update of the doScroll block (src/script.js lines
121-146): scroll up by the exact deficit when the line top is above the
padded top, else scroll down by the exact deficit when the line bottom is
below the padded bottom, else leave scrollTop alone. -/
def scrollAdjust (parentRect lineRect : Rect) (scrollTop : ℚ) : ℚ :=
  if lineRect.top < parentRect.top + paddingTop then
    scrollTop + (lineRect.top - (parentRect.top + paddingTop))
  else if lineRect.bottom > parentRect.bottom - paddingBottom then
    scrollTop + (lineRect.bottom - (parentRect.bottom - paddingBottom))
  else scrollTop

/-- Embedding of setActiveCue (src/script.js lines 109-149). A null cue
argument returns at once, before clearActive runs. Otherwise every line
loses the active class, the map is consulted for the line of the given
cue identity (position of that identity in lineCues), a missing entry
returns, the found line gains the active class, and the scroll block runs
only when doScroll holds. -/
def setActiveCue (env : ScrollEnv) (f : Flags) (cue : Option CueId) (st : CardState) : CardState :=
  match cue with
  | none => st
  | some cid =>
    let st1 := clearActive st
    match st1.lineCues.indexOf? cid with
    | none => st1
    | some li =>
      let st2 := { st1 with lines := markActiveAt st1.lines li }
      if doScroll f then
        { st2 with scrollTop := scrollAdjust env.parentRect (env.lineRect li) st2.scrollTop }
      else st2

/-- Embedding of the cuechange listener (src/script.js lines 152-156):
track.activeCues && track.activeCues.length ? track.activeCues[0] : null
is the head of the active cue list when nonempty, else null. -/
def cuechangeListener (env : ScrollEnv) (f : Flags) (activeCues : List CueId)
    (st : CardState) : CardState :=
  setActiveCue env f activeCues.head? st

/-- The audio element, reduced to the fields the script writes: the
playback position and whether play() has been requested. -/
structure AudioState where
  currentTime : ℚ
  playRequested : Bool
deriving DecidableEq, Repr

/-- Outcome of the play() promise as the platform settles it: rejected
models a blocked autoplay (NotAllowedError). -/
def playPromise (rejected : Bool) : Except String Unit :=
  if rejected then Except.error "NotAllowedError" else Except.ok ()

/-- Embedding of the jump closure (src/script.js lines 69-74): assign
currentTime to the cue startTime plus 0.01, request play, and attach
catch with an empty handler, so a rejection settles to a unit value and
an error is never surfaced. Returns the audio state and the settled
outcome of the play call as observed past the catch. -/
def jump (cue : Cue) (rejected : Bool) (a : AudioState) : AudioState × Except String Unit :=
  let a1 := { a with currentTime := cue.startTime + 1 / 100, playRequested := true }
  (a1,
    match playPromise rejected with
    | Except.error _ => Except.ok ()
    | Except.ok u => Except.ok u)

/-- The click listener on a line (src/script.js line 76): runs jump. -/
def clickListener (cue : Cue) (rejected : Bool) (a : AudioState) : AudioState × Except String Unit :=
  jump cue rejected a

/-- The keydown listener on a line (src/script.js lines 77-82): only the
Enter key and the space key activate; any other key leaves the audio
state alone and surfaces nothing. -/
def keydownListener (key : String) (cue : Cue) (rejected : Bool)
    (a : AudioState) : AudioState × Except String Unit :=
  if key = "Enter" ∨ key = " " then jump cue rejected a else (a, Except.ok ())

/-- Value of Math.min(duration || Infinity, x). The duration argument is
Option ℚ: none models NaN (metadata not loaded, duration unknown). NaN
and 0 are falsy, so both give Infinity and the min imposes no cap; a
nonzero duration d gives min d x. An infinite duration (live stream) also
imposes no cap and behaves as the none case. -/
def durationCap (duration : Option ℚ) (x : ℚ) : ℚ :=
  match duration with
  | none => x
  | some d => if d = 0 then x else min d x

/-- Embedding of the transport button listener (src/script.js lines
159-166): jump-back assigns max(0, currentTime - 5); jump-forward
assigns Math.min(duration || Infinity, currentTime + 5); any other
action value leaves the audio alone. The two ifs run in sequence as in
the source. -/
def buttonListener (action : String) (duration : Option ℚ) (a : AudioState) : AudioState :=
  let a1 := if action = "jump-back" then { a with currentTime := max 0 (a.currentTime - 5) } else a
  if action = "jump-forward" then { a1 with currentTime := durationCap duration (a1.currentTime + 5) }
  else a1

/-- Spec reading of jump-back, written from the spec words: decrease by 5
seconds, floored at 0. -/
def specJumpBack (t : ℚ) : ℚ := if t ≤ 5 then 0 else t - 5

/-- Amended spec reading of jump-forward: increase by 5 seconds, capped
at the known duration, except that an unknown duration or a duration
reported as 0 leaves the increase uncapped. -/
def specJumpForwardAmended (t : ℚ) (duration : Option ℚ) : ℚ :=
  match duration with
  | none => t + 5
  | some d => if d = 0 then t + 5 else if t + 5 ≤ d then t + 5 else d

/-- setInterval delay of the cue polling loop (src/script.js line 103). -/
def pollIntervalMs : ℕ := 150

/-- maxAttempts bound of the cue polling loop (src/script.js line 93). -/
def maxAttempts : ℕ := 20

/-- State of the polling loop: the attempts counter, whether
clearInterval has run, and how many times renderFromCues has been
invoked by the loop. -/
structure PollState where
  attempts : ℕ
  cleared : Bool
  renders : ℕ
deriving DecidableEq, Repr

/-- Poll state right after setInterval is installed. -/
def pollInit : PollState := { attempts := 0, cleared := false, renders := 0 }

/-- One tick of the interval callback (src/script.js lines 94-103).
cuesLen gives track.cues.length as the tick numbered a observes it
(ticks are numbered from 1; the attempts counter equals the tick
number). Once the interval is cleared no further callback runs, so a
cleared state is a fixed point. -/
def pollTick (cuesLen : ℕ → ℕ) (s : PollState) : PollState :=
  if s.cleared then s
  else
    let a := s.attempts + 1
    if cuesLen a ≠ 0 then { attempts := a, cleared := true, renders := s.renders + 1 }
    else if maxAttempts ≤ a then { attempts := a, cleared := true, renders := s.renders + 1 }
    else { attempts := a, cleared := false, renders := s.renders }

/-- The poll state after n interval ticks. -/
def pollRun (cuesLen : ℕ → ℕ) : ℕ → PollState
  | 0 => pollInit
  | n + 1 => pollTick cuesLen (pollRun cuesLen n)

/-- Events a card can observe after setup, each carrying the data its
handler reads from the environment at firing time. -/
inductive CardEvent where
  | render (cues : List (CueId × Cue))
  | cuechange (env : ScrollEnv) (f : Flags) (activeCues : List CueId)

/-- Dispatch of one card event to its handler. -/
def cardStep (st : CardState) : CardEvent → CardState
  | CardEvent.render cues => renderFromCues cues st
  | CardEvent.cuechange env f ac => cuechangeListener env f ac st

/-- The card state after a sequence of events. -/
def cardRun (st : CardState) : List CardEvent → CardState
  | [] => st
  | e :: es => cardRun (cardStep st e) es

/-- Card state at setup time, before any render: no lines exist and the
map is empty. -/
def initCard : CardState :=
  { placeholder := none, lines := [], lineCues := [], scrollTop := 0 }

/-- Number of lines carrying the active class. -/
def countActive (ls : List Line) : ℕ := ls.countP (fun l => l.active)

/-- Events that can fire once the polling timer has been cleared: the
remaining listeners registered by the script are the cuechange listener,
the line click and keydown listeners, and the transport button listener.
None of them is the timer callback, the only caller of renderFromCues. -/
inductive PostPollEvent where
  | cuechange (env : ScrollEnv) (f : Flags) (activeCues : List CueId)
  | lineClick (cue : Cue) (rejected : Bool)
  | lineKeydown (key : String) (cue : Cue) (rejected : Bool)
  | transport (action : String) (duration : Option ℚ)

/-- Dispatch of one post-polling event on the card and audio state. -/
def sysStep (s : CardState × AudioState) : PostPollEvent → CardState × AudioState
  | PostPollEvent.cuechange env f ac => (cuechangeListener env f ac s.1, s.2)
  | PostPollEvent.lineClick cue r => (s.1, (clickListener cue r s.2).1)
  | PostPollEvent.lineKeydown k cue r => (s.1, (keydownListener k cue r s.2).1)
  | PostPollEvent.transport act dur => (s.1, buttonListener act dur s.2)

/-- The system state after a sequence of post-polling events. -/
def sysRun (s : CardState × AudioState) : List PostPollEvent → CardState × AudioState
  | [] => s
  | e :: es => sysRun (sysStep s e) es

/-- Content view of a line: everything except the active class. -/
def lineContent (l : Line) : ℕ × String × String := (l.idx, l.time, l.text)

/-! Helper lemmas shared by the claim theorems. -/

theorem toString_intCast (n : ℕ) : toString ((n : ℤ)) = toString n := rfl

theorem floor_div_sixty (q : ℚ) (h : 0 ≤ q) : ⌊q / 60⌋ = ((⌊q⌋.toNat / 60 : ℕ) : ℤ) := by
  have hq60 : (0:ℚ) ≤ q / 60 := by positivity
  have h1 : ⌊q / 60⌋.toNat = ⌊q⌋.toNat / 60 := by
    rw [Int.floor_toNat, Int.floor_toNat]
    have h2 := Nat.floor_div_nat q 60
    norm_num at h2
    exact h2
  rw [← h1, Int.toNat_of_nonneg (Int.floor_nonneg.mpr hq60)]

theorem floor_jsRem_sixty (q : ℚ) (h : 0 ≤ q) : ⌊jsRem q 60⌋ = ((⌊q⌋.toNat % 60 : ℕ) : ℤ) := by
  have hn : ⌊q⌋ = ((⌊q⌋.toNat : ℕ) : ℤ) := (Int.toNat_of_nonneg (Int.floor_nonneg.mpr h)).symm
  unfold jsRem
  have hcast : (60:ℚ) * ⌊q / 60⌋ = (((60 * ⌊q / 60⌋ : ℤ)) : ℚ) := by push_cast; ring
  rw [hcast, Int.floor_sub_int, floor_div_sixty q h]
  conv_lhs => rw [hn]
  omega

theorem formatTime_nonneg (q : ℚ) (h : 0 ≤ q) :
    formatTime (some q) = mmssOf (⌊q⌋.toNat / 60) (⌊q⌋.toNat % 60) := by
  simp only [formatTime, mmssOf]
  rw [show (some q).getD 0 = q from rfl, max_eq_right h, floor_div_sixty q h,
    floor_jsRem_sixty q h, toString_intCast, toString_intCast]

theorem formatTime_neg (q : ℚ) (h : q < 0) : formatTime (some q) = "00:00" := by
  simp only [formatTime, jsRem]
  rw [show (some q).getD 0 = q from rfl, max_eq_left (le_of_lt h)]
  norm_num
  rfl

theorem countActive_cons (l : Line) (ls : List Line) :
    countActive (l :: ls) = l.active.toNat + countActive ls := by
  cases hl : l.active
  · simp [countActive, List.countP_cons, hl]
  · simp [countActive, List.countP_cons, hl]
    omega

theorem countActive_clear (ls : List Line) :
    countActive (ls.map (fun l => { l with active := false })) = 0 := by
  induction ls with
  | nil => rfl
  | cons l ls ih => rw [List.map_cons, countActive_cons, ih]; rfl

theorem countActive_markActiveAt (ls : List Line) (i : ℕ) (h : countActive ls = 0) :
    countActive (markActiveAt ls i) ≤ 1 := by
  induction ls generalizing i with
  | nil => simp [markActiveAt, countActive]
  | cons l ls ih =>
    rw [countActive_cons] at h
    cases i with
    | zero =>
      rw [markActiveAt, countActive_cons]
      have h1 : ({ l with active := true } : Line).active.toNat = 1 := rfl
      rw [h1]
      omega
    | succ n =>
      rw [markActiveAt, countActive_cons]
      have h2 := ih n (by omega)
      omega

theorem countActive_setActiveCue (env : ScrollEnv) (f : Flags) (cue : Option CueId)
    (st : CardState) (h : countActive st.lines ≤ 1) :
    countActive (setActiveCue env f cue st).lines ≤ 1 := by
  cases cue with
  | none => exact h
  | some cid =>
    simp only [setActiveCue]
    have hclear : countActive (clearActive st).lines = 0 := countActive_clear st.lines
    cases hfind : (clearActive st).lineCues.indexOf? cid with
    | none => simp [hfind, hclear]
    | some li =>
      have hmark := countActive_markActiveAt (clearActive st).lines li hclear
      cases hds : doScroll f <;> simp [hfind, hds, hmark]

theorem countActive_render (cues : List (CueId × Cue)) (st : CardState) :
    countActive (renderFromCues cues st).lines = 0 := by
  simp only [renderFromCues]
  cases he : cues.isEmpty with
  | true => simp [he, countActive]
  | false =>
    simp [he, countActive]
    exact fun a b c hmem => rfl

theorem countActive_cardRun (es : List CardEvent) (st : CardState)
    (h : countActive st.lines ≤ 1) : countActive (cardRun st es).lines ≤ 1 := by
  induction es generalizing st with
  | nil => exact h
  | cons e es ih =>
    show countActive (cardRun (cardStep st e) es).lines ≤ 1
    cases e with
    | render cues =>
      exact ih _ (by simp only [cardStep]; rw [countActive_render]; omega)
    | cuechange env f ac =>
      exact ih _ (countActive_setActiveCue env f ac.head? st h)

theorem pollRun_succ (f : ℕ → ℕ) (n : ℕ) :
    pollRun f (n + 1) = pollTick f (pollRun f n) := rfl

theorem pollRun_inv (f : ℕ → ℕ) (n : ℕ) :
    ((pollRun f n).cleared = false →
      (pollRun f n).attempts = n ∧ (pollRun f n).renders = 0 ∧
      (pollRun f n).attempts < maxAttempts ∧ ∀ k, 1 ≤ k → k ≤ n → f k = 0) ∧
    ((pollRun f n).cleared = true →
      (pollRun f n).renders = 1 ∧ 1 ≤ (pollRun f n).attempts ∧
      (pollRun f n).attempts ≤ maxAttempts ∧ (pollRun f n).attempts ≤ n ∧
      (∀ k, 1 ≤ k → k < (pollRun f n).attempts → f k = 0) ∧
      (f (pollRun f n).attempts ≠ 0 ∨ (pollRun f n).attempts = maxAttempts)) := by
  induction n with
  | zero =>
    constructor
    · intro _
      refine ⟨rfl, rfl, by show 0 < maxAttempts; decide,
        fun k hk1 hk2 => absurd (le_trans hk1 hk2) (by omega)⟩
    · intro hc
      simp [pollRun, pollInit] at hc
  | succ n ih =>
    obtain ⟨ihf, iht⟩ := ih
    by_cases hcl : (pollRun f n).cleared = true
    · have hfix : pollTick f (pollRun f n) = pollRun f n := by
        simp [pollTick, hcl]
      rw [pollRun_succ, hfix]
      obtain ⟨h1, h2, h3, h4, h5, h6⟩ := iht hcl
      refine ⟨fun hfalse => ?_, fun _ => ⟨h1, h2, h3, by omega, h5, h6⟩⟩
      rw [hfalse] at hcl
      exact absurd hcl (by simp)
    · have hclf : (pollRun f n).cleared = false := by
        cases hb : (pollRun f n).cleared
        · rfl
        · exact absurd hb hcl
      obtain ⟨ha, hr, hlt, hzero⟩ := ihf hclf
      by_cases hne : f ((pollRun f n).attempts + 1) ≠ 0
      · have hstep : pollTick f (pollRun f n) =
            { attempts := (pollRun f n).attempts + 1, cleared := true,
              renders := (pollRun f n).renders + 1 } := by
          simp [pollTick, hclf, hne]
        rw [pollRun_succ, hstep]
        dsimp only
        refine ⟨fun hfalse => by simp at hfalse, fun _ => ?_⟩
        refine ⟨by rw [hr], by omega, by omega, by omega, ?_, ?_⟩
        · intro k hk1 hk2
          exact hzero k hk1 (by omega)
        · exact Or.inl hne
      · have hz : f ((pollRun f n).attempts + 1) = 0 := by
          by_contra hc
          exact hne hc
        by_cases hmax : maxAttempts ≤ (pollRun f n).attempts + 1
        · have hstep : pollTick f (pollRun f n) =
              { attempts := (pollRun f n).attempts + 1, cleared := true,
                renders := (pollRun f n).renders + 1 } := by
            simp [pollTick, hclf, hz, hmax]
          rw [pollRun_succ, hstep]
          dsimp only
          refine ⟨fun hfalse => by simp at hfalse, fun _ => ?_⟩
          refine ⟨by rw [hr], by omega, by omega, by omega, ?_, Or.inr (by omega)⟩
          intro k hk1 hk2
          exact hzero k hk1 (by omega)
        · have hstep : pollTick f (pollRun f n) =
              { attempts := (pollRun f n).attempts + 1, cleared := false,
                renders := (pollRun f n).renders } := by
            simp [pollTick, hclf, hz, hmax]
          rw [pollRun_succ, hstep]
          dsimp only
          refine ⟨fun _ => ⟨by omega, by rw [hr], by omega, ?_⟩, fun htrue => by simp at htrue⟩
          intro k hk1 hk2
          rcases Nat.lt_or_ge k (n + 1) with hlt2 | hge
          · exact hzero k hk1 (by omega)
          · have hk : k = n + 1 := by omega
            rw [hk, ← ha]
            exact hz

theorem pollRun_stable (f : ℕ → ℕ) (n : ℕ) (h : (pollRun f n).cleared = true) :
    ∀ m, n ≤ m → pollRun f m = pollRun f n := by
  intro m hm
  induction m, hm using Nat.le_induction with
  | base => rfl
  | succ m hm ih =>
    rw [pollRun_succ, ih]
    simp [pollTick, h]

theorem buttonListener_back (dur : Option ℚ) (a : AudioState) :
    buttonListener "jump-back" dur a = { a with currentTime := max 0 (a.currentTime - 5) } := by
  simp [buttonListener]

theorem buttonListener_forward (dur : Option ℚ) (a : AudioState) :
    buttonListener "jump-forward" dur a =
      { a with currentTime := durationCap dur (a.currentTime + 5) } := by
  simp [buttonListener]

theorem doScroll_eq_true_iff (f : Flags) :
    doScroll f = true ↔ f.detailsOpen = some true ∧ f.autoScrollChecked = some true := by
  obtain ⟨d, c⟩ := f
  cases d <;> cases c <;> simp [doScroll]

theorem setActiveCue_scrollTop_of_not (env : ScrollEnv) (f : Flags) (cue : Option CueId)
    (st : CardState) (h : doScroll f = false) :
    (setActiveCue env f cue st).scrollTop = st.scrollTop := by
  cases cue with
  | none => rfl
  | some cid =>
    simp only [setActiveCue]
    cases hfind : (clearActive st).lineCues.indexOf? cid with
    | none => rfl
    | some li => simp [h, clearActive]

theorem setActiveCue_lines_flags (env : ScrollEnv) (f f2 : Flags) (cue : Option CueId)
    (st : CardState) :
    (setActiveCue env f cue st).lines = (setActiveCue env f2 cue st).lines := by
  cases cue with
  | none => rfl
  | some cid =>
    simp only [setActiveCue]
    cases hfind : (clearActive st).lineCues.indexOf? cid with
    | none => rfl
    | some li => cases doScroll f <;> cases doScroll f2 <;> simp

theorem setActiveCue_scrollTop_adjust (env : ScrollEnv) (f : Flags) (cid : CueId)
    (st : CardState) (li : ℕ) (hds : doScroll f = true)
    (hfind : st.lineCues.indexOf? cid = some li) :
    (setActiveCue env f (some cid) st).scrollTop =
      scrollAdjust env.parentRect (env.lineRect li) st.scrollTop := by
  simp only [setActiveCue]
  rw [show (clearActive st).lineCues = st.lineCues from rfl, hfind]
  simp [hds, clearActive]

theorem markActiveAt_content (ls : List Line) (i : ℕ) :
    (markActiveAt ls i).map lineContent = ls.map lineContent := by
  induction ls generalizing i with
  | nil => rfl
  | cons l ls ih =>
    cases i with
    | zero => simp [markActiveAt, lineContent]
    | succ n => simp [markActiveAt, ih n]

theorem clearActive_content (ls : List Line) :
    (ls.map (fun l => { l with active := false })).map lineContent = ls.map lineContent := by
  rw [List.map_map]
  rfl

theorem setActiveCue_placeholder (env : ScrollEnv) (f : Flags) (cue : Option CueId)
    (st : CardState) : (setActiveCue env f cue st).placeholder = st.placeholder := by
  cases cue with
  | none => rfl
  | some cid =>
    simp only [setActiveCue]
    cases hfind : (clearActive st).lineCues.indexOf? cid with
    | none => rfl
    | some li => cases doScroll f <;> simp [clearActive]

theorem setActiveCue_content (env : ScrollEnv) (f : Flags) (cue : Option CueId)
    (st : CardState) :
    (setActiveCue env f cue st).lines.map lineContent = st.lines.map lineContent := by
  cases cue with
  | none => rfl
  | some cid =>
    simp only [setActiveCue]
    cases hfind : (clearActive st).lineCues.indexOf? cid with
    | none => exact clearActive_content st.lines
    | some li =>
      have h1 : (markActiveAt (clearActive st).lines li).map lineContent =
          st.lines.map lineContent := by
        rw [markActiveAt_content]
        exact clearActive_content st.lines
      cases doScroll f <;> simp [h1]

theorem sysRun_placeholder (es : List PostPollEvent) (s : CardState × AudioState) :
    (sysRun s es).1.placeholder = s.1.placeholder := by
  induction es generalizing s with
  | nil => rfl
  | cons e es ih =>
    show (sysRun (sysStep s e) es).1.placeholder = s.1.placeholder
    rw [ih]
    cases e with
    | cuechange env f ac => exact setActiveCue_placeholder env f ac.head? s.1
    | lineClick cue r => rfl
    | lineKeydown k cue r => rfl
    | transport act dur => rfl

/-! Claim theorems. -/

/-- Claim C1, counterexample: a cuechange event that supplies zero active
cues does NOT clear the active marking. Starting from a state whose one
line is marked active, the handler leaves that line marked active,
because setActiveCue returns on a null cue before clearActive runs
(src/script.js line 110). -/
theorem c1_counterexample :
    countActive ((cuechangeListener ⟨⟨0, 0⟩, fun _ => ⟨0, 0⟩⟩ ⟨some true, some true⟩ []
      ⟨none, [⟨0, "00:00", "a", true⟩], [0], 0⟩).lines) = 1 := rfl

/-- Claim C1 as amended: when a cue-activation event supplies zero active
cues, the handler returns immediately; the card state, in particular
every line marking and the scroll position, is left exactly unchanged
(so no scroll adjustment is performed, but no clearing happens either). -/
theorem c1_amended_noop (env : ScrollEnv) (f : Flags) (st : CardState) :
    cuechangeListener env f [] st = st := rfl

/-- Claim C2: for every non-negative input formatTime returns the
zero-padded MM:SS rendering of the floor-truncated minutes (floor of the
input, divided by 60) and seconds (floor of the input, modulo 60); a
negative or missing input yields "00:00"; in particular 125.7 gives
"02:05" and -5 gives "00:00". -/
theorem c2_formatTime_mmss :
    (∀ q : ℚ, 0 ≤ q → formatTime (some q) = mmssOf (⌊q⌋.toNat / 60) (⌊q⌋.toNat % 60)) ∧
    (∀ q : ℚ, q < 0 → formatTime (some q) = "00:00") ∧
    formatTime none = "00:00" ∧
    formatTime (some (1257 / 10)) = "02:05" ∧
    formatTime (some (-5)) = "00:00" := by
  refine ⟨formatTime_nonneg, formatTime_neg, ?_, ?_, formatTime_neg (-5) (by decide)⟩
  · unfold formatTime jsRem
    norm_num
    rfl
  · unfold formatTime jsRem
    norm_num
    rfl

/-- Claim C2 witness: the general clauses of c2_formatTime_mmss evaluated
at the concrete inputs 61 and -3. -/
theorem c2_formatTime_mmss_witness :
    formatTime (some 61) = mmssOf 1 1 ∧ formatTime (some (-3)) = "00:00" := by
  constructor
  · have h := c2_formatTime_mmss.1 61 (by decide)
    rw [h]
    norm_num
    rfl
  · exact c2_formatTime_mmss.2.1 (-3) (by decide)

/-- Claim C3: the polling loop runs at the fixed 150 ms interval constant
with a 20-attempt bound; for every schedule of cue availability, once at
least maxAttempts ticks have elapsed the interval has been cleared,
renderFromCues was invoked exactly once, the loop stopped on the first
tick that saw non-empty cue data or on the tick that exhausted the
attempts (every earlier tick saw empty data), the state never changes on
later ticks, and at no time does the render count exceed one. -/
theorem c3_cue_polling (f : ℕ → ℕ) (n : ℕ) (h : maxAttempts ≤ n) :
    pollIntervalMs = 150 ∧ maxAttempts = 20 ∧
    (pollRun f n).cleared = true ∧
    (pollRun f n).renders = 1 ∧
    1 ≤ (pollRun f n).attempts ∧
    (pollRun f n).attempts ≤ maxAttempts ∧
    (∀ k, 1 ≤ k → k < (pollRun f n).attempts → f k = 0) ∧
    (f (pollRun f n).attempts ≠ 0 ∨ (pollRun f n).attempts = maxAttempts) ∧
    (∀ m, n ≤ m → pollRun f m = pollRun f n) ∧
    (∀ m, (pollRun f m).renders ≤ 1) := by
  have hcl : (pollRun f n).cleared = true := by
    cases hb : (pollRun f n).cleared
    · obtain ⟨ha, _, hlt, _⟩ := (pollRun_inv f n).1 hb
      omega
    · rfl
  obtain ⟨h1, h2, h3, _, h5, h6⟩ := (pollRun_inv f n).2 hcl
  refine ⟨rfl, rfl, hcl, h1, h2, h3, h5, h6, pollRun_stable f n hcl, ?_⟩
  intro m
  cases hb : (pollRun f m).cleared
  · have h7 := (pollRun_inv f m).1 hb
    omega
  · have h7 := (pollRun_inv f m).2 hb
    omega

/-- Claim C3 witness: with cue data that never arrives, after 20 ticks
the timer is cleared and exactly one render has run. -/
theorem c3_cue_polling_witness :
    (pollRun (fun _ => 0) 20).cleared = true ∧ (pollRun (fun _ => 0) 20).renders = 1 := by
  have h := c3_cue_polling (fun _ => 0) 20 (by decide)
  exact ⟨h.2.2.1, h.2.2.2.1⟩

/-- Claim C4: starting from the setup state, after any sequence of render
passes and cue-activation events at most one rendered line carries the
active marking. -/
theorem c4_at_most_one_active (es : List CardEvent) :
    countActive (cardRun initCard es).lines ≤ 1 :=
  countActive_cardRun es initCard (by decide)

/-- Claim C5: a successful render pass (non-empty cue list) removes the
placeholder and produces exactly one line per cue, in cue order, each
line holding the formatted timestamp of its cue and the cue text
verbatim; re-rendering the same cue list is idempotent, so two passes
over the same list yield identical lines. -/
theorem c5_render_projection (cues : List (CueId × Cue)) (st : CardState) (h : cues ≠ []) :
    (renderFromCues cues st).placeholder = none ∧
    (renderFromCues cues st).lines.length = cues.length ∧
    (∀ i : ℕ, (renderFromCues cues st).lines[i]? =
      (cues[i]?).map (fun p =>
        { idx := i, time := formatTime (some p.2.startTime), text := p.2.text,
          active := false })) ∧
    renderFromCues cues (renderFromCues cues st) = renderFromCues cues st := by
  have he : cues.isEmpty = false := by
    cases cues with
    | nil => exact absurd rfl h
    | cons c cs => rfl
  refine ⟨by simp [renderFromCues, he], ?_, ?_, by simp [renderFromCues, he]⟩
  · simp [renderFromCues, he]
  · intro i
    have hl : (renderFromCues cues st).lines = cues.enum.map (fun p => mkLine p.1 p.2.2) := by
      simp [renderFromCues, he]
    rw [hl, List.getElem?_map, List.getElem?_enum]
    cases cues[i]? with
    | none => rfl
    | some p => rfl

/-- Claim C5 witness: c5_render_projection evaluated on a one-cue list. -/
theorem c5_render_projection_witness :
    (renderFromCues [(0, ⟨0, "hi"⟩)] initCard).placeholder = none ∧
    (renderFromCues [(0, ⟨0, "hi"⟩)] initCard).lines.length = 1 :=
  ⟨(c5_render_projection [(0, ⟨0, "hi"⟩)] initCard (List.cons_ne_nil _ _)).1,
   (c5_render_projection [(0, ⟨0, "hi"⟩)] initCard (List.cons_ne_nil _ _)).2.1⟩

/-- Claim C6: activating a line by click, or by Enter or Space while
focused, sets the playback position to exactly the cue start time plus
0.01 and requests playback, and the outcome observed past the attached
catch handler is always a success, even when the play promise was
rejected; any other key leaves the audio state alone. -/
theorem c6_line_activation (cue : Cue) (rejected : Bool) (a : AudioState) (key : String) :
    (jump cue rejected a).1.currentTime = cue.startTime + 1 / 100 ∧
    (jump cue rejected a).1.playRequested = true ∧
    (jump cue rejected a).2 = Except.ok () ∧
    clickListener cue rejected a = jump cue rejected a ∧
    keydownListener "Enter" cue rejected a = jump cue rejected a ∧
    keydownListener " " cue rejected a = jump cue rejected a ∧
    (key ≠ "Enter" → key ≠ " " → keydownListener key cue rejected a = (a, Except.ok ())) := by
  refine ⟨rfl, rfl, ?_, rfl, by simp [keydownListener], by simp [keydownListener], ?_⟩
  · cases rejected <;> rfl
  · intro h1 h2
    simp [keydownListener, h1, h2]

/-- Claim C6 witness: c6_line_activation at a concrete cue, a rejected
play promise and the inert key "a". -/
theorem c6_line_activation_witness :
    (jump ⟨3, "x"⟩ true ⟨0, false⟩).1.currentTime = 3 + 1 / 100 ∧
    keydownListener "a" ⟨3, "x"⟩ true ⟨0, false⟩ = (⟨0, false⟩, Except.ok ()) :=
  ⟨(c6_line_activation ⟨3, "x"⟩ true ⟨0, false⟩ "a").1,
   (c6_line_activation ⟨3, "x"⟩ true ⟨0, false⟩ "a").2.2.2.2.2.2 (by decide) (by decide)⟩

/-- Claim C7, counterexample: with playback position 0 and a known
duration equal to 0, jump-forward sets the position to 5, not to
min(duration, position + 5) = 0 as the claim states, because
duration || Infinity treats the falsy duration 0 as unknown
(src/script.js line 164). -/
theorem c7_counterexample :
    (buttonListener "jump-forward" (some 0) ⟨0, false⟩).currentTime = 5 ∧
    min (0 : ℚ) (0 + 5) = 0 ∧ (5 : ℚ) ≠ 0 := by
  refine ⟨?_, by norm_num, by norm_num⟩
  rw [buttonListener_forward]
  norm_num [durationCap]

/-- Claim C7 as amended: jump-back sets the position to the old position
minus 5, floored at 0; jump-forward caps position + 5 at the duration
when the duration is known and nonzero, and leaves it uncapped when the
duration is unknown or reported as 0; with position 10 and duration 20,
jump-forward yields 15, and it also yields 15 when the duration is
unknown. -/
theorem c7_transport (a : AudioState) (dur : Option ℚ) :
    (buttonListener "jump-back" dur a).currentTime = specJumpBack a.currentTime ∧
    (buttonListener "jump-forward" dur a).currentTime =
      specJumpForwardAmended a.currentTime dur ∧
    (buttonListener "jump-forward" (some 20) ⟨10, false⟩).currentTime = 15 ∧
    (buttonListener "jump-forward" none ⟨10, false⟩).currentTime = 15 := by
  refine ⟨?_, ?_, ?_, ?_⟩
  · rw [buttonListener_back]
    simp only [specJumpBack]
    rcases le_or_lt a.currentTime 5 with hle | hlt
    · rw [if_pos hle, max_eq_left (by linarith)]
    · rw [if_neg (not_le.mpr hlt), max_eq_right (by linarith)]
  · rw [buttonListener_forward]
    simp only [durationCap, specJumpForwardAmended]
    cases dur with
    | none => rfl
    | some d =>
      by_cases hd : d = 0
      · simp [hd]
      · simp only [if_neg hd]
        rcases le_or_lt (a.currentTime + 5) d with hle | hlt
        · rw [min_eq_right hle, if_pos hle]
        · rw [min_eq_left (by linarith), if_neg (not_le.mpr hlt)]
  · rw [buttonListener_forward]
    norm_num [durationCap]
  · rw [buttonListener_forward]
    norm_num [durationCap]

/-- Claim C8: a cue-activation event changes the scroll position only
when the details wrapper is present and open and the auto-scroll checkbox
is present and checked; in every other case scrollTop is unchanged, while
the resulting line markings do not depend on those two flags at all. -/
theorem c8_scroll_gate (env : ScrollEnv) (f : Flags) (cue : Option CueId) (st : CardState) :
    ((setActiveCue env f cue st).scrollTop ≠ st.scrollTop →
      f.detailsOpen = some true ∧ f.autoScrollChecked = some true) ∧
    (¬ (f.detailsOpen = some true ∧ f.autoScrollChecked = some true) →
      (setActiveCue env f cue st).scrollTop = st.scrollTop) ∧
    (∀ f2 : Flags, (setActiveCue env f cue st).lines = (setActiveCue env f2 cue st).lines) := by
  have hkey : ¬ (f.detailsOpen = some true ∧ f.autoScrollChecked = some true) →
      (setActiveCue env f cue st).scrollTop = st.scrollTop := by
    intro hno
    have hds : doScroll f = false := by
      cases hb : doScroll f
      · rfl
      · exact absurd ((doScroll_eq_true_iff f).mp hb) hno
    exact setActiveCue_scrollTop_of_not env f cue st hds
  refine ⟨?_, hkey, fun f2 => setActiveCue_lines_flags env f f2 cue st⟩
  intro hne
  by_contra hno
  exact hne (hkey hno)

/-- Claim C8 witness: with the wrapper collapsed (details open flag
false) and the checkbox checked, a line far above the visible window
still causes no scroll change. -/
theorem c8_scroll_gate_witness :
    (setActiveCue ⟨⟨0, 100⟩, fun _ => ⟨-50, -40⟩⟩ ⟨some false, some true⟩ (some 0)
      ⟨none, [⟨0, "00:00", "a", false⟩], [0], 7⟩).scrollTop =
      (⟨none, [⟨0, "00:00", "a", false⟩], [0], 7⟩ : CardState).scrollTop :=
  (c8_scroll_gate ⟨⟨0, 100⟩, fun _ => ⟨-50, -40⟩⟩ ⟨some false, some true⟩ (some 0)
    ⟨none, [⟨0, "00:00", "a", false⟩], [0], 7⟩).2.1 (by decide)

/-- Claim C9: when auto-scroll applies (wrapper open, checkbox checked,
line found), with top padding 20 and bottom padding 30: a line top above
the padded top moves the scroll offset by exactly the negative deficit; a
line bottom below the padded bottom moves it by exactly the positive
deficit; otherwise the scroll offset is unchanged. -/
theorem c9_scroll_exact (env : ScrollEnv) (f : Flags) (cid : CueId) (st : CardState) (li : ℕ)
    (hopen : f.detailsOpen = some true) (hcheck : f.autoScrollChecked = some true)
    (hfind : st.lineCues.indexOf? cid = some li) :
    paddingTop = 20 ∧ paddingBottom = 30 ∧
    ((env.lineRect li).top < env.parentRect.top + paddingTop →
      (setActiveCue env f (some cid) st).scrollTop =
        st.scrollTop + ((env.lineRect li).top - (env.parentRect.top + paddingTop)) ∧
      (setActiveCue env f (some cid) st).scrollTop - st.scrollTop < 0) ∧
    (¬ (env.lineRect li).top < env.parentRect.top + paddingTop →
      (env.lineRect li).bottom > env.parentRect.bottom - paddingBottom →
      (setActiveCue env f (some cid) st).scrollTop =
        st.scrollTop + ((env.lineRect li).bottom - (env.parentRect.bottom - paddingBottom)) ∧
      0 < (setActiveCue env f (some cid) st).scrollTop - st.scrollTop) ∧
    (¬ (env.lineRect li).top < env.parentRect.top + paddingTop →
      ¬ (env.lineRect li).bottom > env.parentRect.bottom - paddingBottom →
      (setActiveCue env f (some cid) st).scrollTop = st.scrollTop) := by
  have hds : doScroll f = true := (doScroll_eq_true_iff f).mpr ⟨hopen, hcheck⟩
  have hadj := setActiveCue_scrollTop_adjust env f cid st li hds hfind
  refine ⟨rfl, rfl, ?_, ?_, ?_⟩
  · intro htop
    rw [hadj, scrollAdjust, if_pos htop]
    constructor
    · rfl
    · linarith
  · intro htop hbot
    rw [hadj, scrollAdjust, if_neg htop, if_pos hbot]
    constructor
    · rfl
    · linarith [not_lt.mp htop]
  · intro htop hbot
    rw [hadj, scrollAdjust, if_neg htop, if_neg hbot]

/-- Claim C9 witness: a line with top edge 5 inside a container with top
edge 0 is above the padded top, so the scroll offset 50 moves by the
negative deficit 5 - 20. -/
theorem c9_scroll_exact_witness :
    (setActiveCue ⟨⟨0, 100⟩, fun _ => ⟨5, 15⟩⟩ ⟨some true, some true⟩ (some 3)
      ⟨none, [], [3], 50⟩).scrollTop = 50 + (5 - (0 + paddingTop)) :=
  ((c9_scroll_exact ⟨⟨0, 100⟩, fun _ => ⟨5, 15⟩⟩ ⟨some true, some true⟩ 3
      ⟨none, [], [3], 50⟩ 0 rfl rfl (by decide)).2.2.1 (by norm_num [paddingTop])).1

/-- Claim C10: the cuechange listener never re-renders: it leaves the
placeholder and the content of every line (index, timestamp, text)
untouched for every input; consequently, once polling has ended with the
loading placeholder installed, no sequence of post-polling events
(cue-activation events, line clicks, keydowns, transport clicks) ever
replaces the placeholder, even if cue data exists by then. -/
theorem c10_no_render_outside_timer (c : CardState) (a : AudioState)
    (es : List PostPollEvent) :
    (∀ env f ac st, (cuechangeListener env f ac st).placeholder = st.placeholder ∧
      (cuechangeListener env f ac st).lines.map lineContent = st.lines.map lineContent) ∧
    (c.placeholder = some loadingMsg →
      (sysRun (c, a) es).1.placeholder = some loadingMsg) := by
  constructor
  · intro env f ac st
    exact ⟨setActiveCue_placeholder env f ac.head? st, setActiveCue_content env f ac.head? st⟩
  · intro h
    rw [sysRun_placeholder]
    exact h

/-- Claim C10 witness: after polling ended with the placeholder, a
cue-activation event naming an existing cue leaves the placeholder in
place. -/
theorem c10_no_render_outside_timer_witness :
    (sysRun (⟨some loadingMsg, [], [], 0⟩, ⟨0, false⟩)
      [PostPollEvent.cuechange ⟨⟨0, 0⟩, fun _ => ⟨0, 0⟩⟩ ⟨some true, some true⟩ [5]]).1.placeholder =
      some loadingMsg :=
  (c10_no_render_outside_timer ⟨some loadingMsg, [], [], 0⟩ ⟨0, false⟩
    [PostPollEvent.cuechange ⟨⟨0, 0⟩, fun _ => ⟨0, 0⟩⟩ ⟨some true, some true⟩ [5]]).2 rfl

end Script
